import Mathlib

/-!
Verification of the resilient batch-classification pipeline of the
chatgpt_labeling repository.  The Python sources under src/ are shallowly
embedded: JSON values become an inductive type, Python floats become
rationals, stateful loops become explicit state-passing functions, and
code that can raise becomes Option-valued.
-/

namespace ChatGPTLabeling

/-- Model of a decoded JSON value (the result of json.loads).  Python
floats are modelled as rationals. -/
inductive Json where
  | null : Json
  | bool (b : Bool) : Json
  | num (q : ℚ) : Json
  | str (s : String) : Json
  | arr (xs : List Json) : Json
  | obj (fields : List (String × Json)) : Json

namespace Json

/-- Dictionary lookup, modelling Python dict indexing and the in operator.
Field lists coming from json.loads have unique keys, so first-match lookup
agrees with Python dict semantics. -/
def lookup (j : Json) (k : String) : Option Json :=
  match j with
  | .obj fields => fields.lookup k
  | _ => none

/-- Models the Python membership test, key in dict. -/
def hasKey (j : Json) (k : String) : Bool :=
  (j.lookup k).isSome

/-- Models isinstance(x, list). -/
def isArr : Json → Bool
  | .arr _ => true
  | _ => false

/-- Models isinstance(x, dict). -/
def isObj : Json → Bool
  | .obj _ => true
  | _ => false

/-- Models Python type(x).__name__ as used in an error message. -/
def typeName : Json → String
  | .null => "NoneType"
  | .bool _ => "bool"
  | .num _ => "float"
  | .str _ => "str"
  | .arr _ => "list"
  | .obj _ => "dict"

end Json

/-- Models the Python str.strip method with no argument: removes leading
and trailing whitespace. -/
def pyStrip (s : String) : String :=
  ⟨((s.data.dropWhile Char.isWhitespace).reverse.dropWhile Char.isWhitespace).reverse⟩

/-- Models the Python str.lower method. -/
def pyLower (s : String) : String :=
  ⟨s.data.map Char.toLower⟩

/-- Whether the pattern occurs at the start of the character list. -/
def listStartsWith : List Char → List Char → Bool
  | [], _ => true
  | _ :: _, [] => false
  | p :: ps, c :: cs => p == c && listStartsWith ps cs

/-- Whether the pattern occurs anywhere in the character list. -/
def listHasInfix (pat : List Char) : List Char → Bool
  | [] => listStartsWith pat []
  | c :: cs => listStartsWith pat (c :: cs) || listHasInfix pat cs

/-- Models the Python substring test, pat in s. -/
def strContains (s pat : String) : Bool :=
  listHasInfix pat.data s.data

/-- Parses an optional sign followed by digits and an optional fractional
part.  Models the Python float(str) conversion for the plain decimal
literals that occur in this pipeline (Python also accepts exponents and
special values, which never arise here; anything this parser rejects is
modelled as a raised ValueError, that is, none). -/
def parseDec (s : String) : Option ℚ :=
  let chars := s.data
  let (sign, rest) :=
    match chars with
    | '-' :: cs => ((-1 : ℚ), cs)
    | '+' :: cs => ((1 : ℚ), cs)
    | cs => ((1 : ℚ), cs)
  let intPart := rest.takeWhile Char.isDigit
  let afterInt := rest.dropWhile Char.isDigit
  if intPart.isEmpty then none
  else
    let intVal : ℕ := intPart.foldl (fun a c => a * 10 + (c.toNat - '0'.toNat)) 0
    match afterInt with
    | [] => some (sign * intVal)
    | '.' :: frac =>
      if frac.all Char.isDigit ∧ ¬ frac.isEmpty then
        let fracVal : ℕ := frac.foldl (fun a c => a * 10 + (c.toNat - '0'.toNat)) 0
        some (sign * (intVal + (fracVal : ℚ) / (10 : ℚ) ^ frac.length))
      else none
    | _ => none

/-- Models the Python float(x) coercion on a decoded JSON value: numbers
pass through, booleans become 0 or 1, numeric strings are parsed, and
every other value raises (none). -/
def pyFloat : Json → Option ℚ
  | .num q => some q
  | .bool b => some (if b then 1 else 0)
  | .str s => parseDec s
  | _ => none

/-- The twelve taxonomy labels, from get_label_list in config/labels.py
(the values of TNMT_LABELS in key order). -/
def labelList : List String :=
  ["Biển - hải đảo", "Thông tin chung", "Môi trường",
   "Địa chất - Khoáng sản", "Đất đai", "Đa dạng sinh học",
   "Viễn thám", "Quản lý chất thải rắn", "Đo đạc và bản đồ",
   "Khí tượng thủy văn - Biến đổi khí hậu", "Tài nguyên nước", "Khác"]

/-- Fuel-driven accumulation of the decimal digits of n, most significant
first; n itself is always enough fuel. -/
def pyNatStrAux : ℕ → ℕ → List Char
  | 0, _ => []
  | fuel + 1, n =>
    if n = 0 then [] else pyNatStrAux fuel (n / 10) ++ [Nat.digitChar (n % 10)]

/-- Models the Python str builtin on a nonnegative integer: ordinary
decimal notation. -/
def pyNatStr (n : ℕ) : String :=
  if n = 0 then "0" else ⟨pyNatStrAux (n + 1) n⟩

/-! ## Response parser (utils/validators.py, ResponseValidator) -/

/-- The known wrapper keys tried in order by validate_json_response. -/
def possibleKeys : List String :=
  ["output", "result", "labels", "data", "classifications", "predictions", "items"]

/-- Format 2 of validate_json_response: first known key whose value is a
list. -/
def findKnownArr (j : Json) : Option (List Json) :=
  possibleKeys.findSome? fun k =>
    match j.lookup k with
    | some (Json.arr xs) => some xs
    | _ => none

/-- Format 3 of validate_json_response: the nested function
find_array_recursive.  A non-empty list is accepted once its first element
is an object containing a label or name field; dictionaries are searched
value by value with the depth bound decremented; everything else yields
None. -/
def findArrayRec (d : ℕ) (j : Json) : Option (List Json) :=
  match d with
  | 0 => none
  | d + 1 =>
    match j with
    | .arr xs =>
      match xs with
      | first :: _ =>
        if first.isObj ∧ (first.hasKey "label" ∨ first.hasKey "name") then some xs
        else none
      | [] => none
    | .obj fields => fields.findSome? fun kv => findArrayRec d kv.2
    | _ => none

/-- The numbered-key loop of _try_reconstruct_from_flat_structure.  The
Python while loop looks up label{i} and confidence{i} starting at i = 1;
a failing float conversion raises out of the loop (Except.error).  The
fuel argument bounds the loop; fields.length + 1 iterations always
suffice because the loop needs a distinct present key per step. -/
def collectNumbered (j : Json) (i : ℕ) : ℕ → Except Unit (List Json)
  | 0 => .ok []
  | fuel + 1 =>
    match j.lookup ("label" ++ pyNatStr i), j.lookup ("confidence" ++ pyNatStr i) with
    | some lv, some cv =>
      match pyFloat cv with
      | none => .error ()
      | some q =>
        match collectNumbered j (i + 1) fuel with
        | .error () => .error ()
        | .ok rest => .ok (Json.obj [("label", lv), ("confidence", .num q)] :: rest)
    | _, _ => .ok []

/-- Insertion into a list sorted by the String order; used to model the
Python sorted builtin. -/
def insertSorted (x : String) : List String → List String
  | [] => [x]
  | y :: ys => if x < y then x :: y :: ys else y :: insertSorted x ys

/-- Models the Python sorted builtin on a list of strings (a stable sort
by the lexicographic code point order; on the duplicate-free key lists
that occur here any correct sort agrees). -/
def pySorted : List String → List String
  | [] => []
  | x :: xs => insertSorted x (pySorted xs)

/-- The unnumbered branch of _try_reconstruct_from_flat_structure: pair
the sorted label-substring keys with the sorted confidence-substring keys;
a failing float conversion or a missing key raises (Except.error). -/
def collectUnnumbered (j : Json) : List (String × String) → Except Unit (List Json)
  | [] => .ok []
  | (lk, ck) :: rest =>
    match j.lookup lk, j.lookup ck with
    | some lv, some cv =>
      match pyFloat cv with
      | none => .error ()
      | some q =>
        match collectUnnumbered j rest with
        | .error () => .error ()
        | .ok tail => .ok (Json.obj [("label", lv), ("confidence", .num q)] :: tail)
    | _, _ => .error ()

/-- Format 4 of validate_json_response: _try_reconstruct_from_flat_structure.
Returns none both when an exception was raised inside the try block and
when no labels could be reconstructed, exactly as the source returns None
in both cases. -/
def tryReconstructFlat (fields : List (String × Json)) : Option (List Json) :=
  let j := Json.obj fields
  match collectNumbered j 1 (fields.length + 1) with
  | .error () => none
  | .ok numbered =>
    if numbered.isEmpty then
      let keys := fields.map (·.1)
      let labelKeys := keys.filter fun k => strContains (pyLower k) "label"
      let confKeys := keys.filter fun k =>
        strContains (pyLower k) "confidence" || strContains (pyLower k) "conf"
      if labelKeys.length = confKeys.length ∧ 0 < labelKeys.length then
        match collectUnnumbered j ((pySorted labelKeys).zip (pySorted confKeys)) with
        | .error () => none
        | .ok ls => if ls.isEmpty then none else some ls
      else none
    else some numbered

/-- The per-item validation loop of validate_json_response (lines 157-173):
every item must be a dictionary with a label field and a confidence field
whose float coercion lands in the closed interval from 0 to 1.  Returns
the first diagnostic message, or none when all items pass. -/
def checkItems : List Json → ℕ → Option String
  | [], _ => none
  | item :: rest, i =>
    if ¬ item.isObj then some ("Item " ++ pyNatStr i ++ " is not a dictionary")
    else if ¬ item.hasKey "label" then
      some ("Item " ++ pyNatStr i ++ " missing \x27label\x27 field")
    else if ¬ item.hasKey "confidence" then
      some ("Item " ++ pyNatStr i ++ " missing \x27confidence\x27 field")
    else
      match (item.lookup "confidence").bind pyFloat with
      | none => some ("Item " ++ pyNatStr i ++ " confidence must be a number")
      | some q =>
        if ¬ ((0 : ℚ) ≤ q ∧ q ≤ 1) then
          some ("Item " ++ pyNatStr i ++ " confidence must be between 0.0 and 1.0")
        else checkItems rest (i + 1)

/-- The shared tail of validate_json_response once a candidate label
array has been extracted: run the per-item validation loop and return the
tuple. -/
def finishItems (labelsData : List Json) : Option (List Json) × String :=
  match checkItems labelsData 0 with
  | some msg => (none, msg)
  | none => (some labelsData, "Valid")

/-- ResponseValidator.validate_json_response after JSON decoding: the four
shape handlers tried in order, then the per-item validation loop.  The
first component is some labels exactly when the source returns
is_valid = True; the second component is the returned message. -/
def validateParsed (parsed : Json) : Option (List Json) × String :=
  match parsed with
  | .arr xs => finishItems xs
  | .obj fields =>
    match findKnownArr (.obj fields) with
    | some xs => finishItems xs
    | none =>
      match findArrayRec 5 (.obj fields) with
      | some xs => finishItems xs
      | none =>
        match tryReconstructFlat fields with
        | some xs => finishItems xs
        | none =>
          -- the source renders list(parsed.keys()) here; the key list
          -- rendering is abbreviated to a comma-separated join
          (none, "No valid label array found in response. Available keys: "
            ++ String.intercalate ", " (fields.map (·.1)))
  | other => (none, "Response must be JSON array or object, got " ++ other.typeName)

/-- ResponseValidator.validate_json_response including the JSON decoding
step: none models a string that json.loads rejects. -/
def validateResp (decoded : Option Json) : Option (List Json) × String :=
  match decoded with
  | none => (none, "Invalid JSON")
  | some j => validateParsed j

/-- A cleaned label entry as produced by validate_labels: the cleaning
loop always emits a dictionary with exactly a string label and a float
confidence, so the cleaned data is given this typed form. -/
structure LabelConf where
  label : String
  confidence : ℚ
deriving DecidableEq, Repr

/-- ResponseValidator.validate_labels.  none models an exception escaping
the function: the source calls item.get, which raises on a non-dictionary
item, and .strip(), which raises on a non-string label value.  Otherwise
invalid labels are dropped with one warning each, numeric confidences are
clamped into the unit interval, and a non-numeric confidence is replaced
by 0.5 with a warning.  A missing confidence defaults to 0.0 before the
float conversion, so it is kept silently. -/
def validate_labels : List Json → Option (List LabelConf × List String)
  | [] => some ([], [])
  | item :: rest =>
    if ¬ item.isObj then none
    else
      match (item.lookup "label").getD (.str "") with
      | .str s =>
        let label := pyStrip s
        let confidence := (item.lookup "confidence").getD (.num 0)
        match validate_labels rest with
        | none => none
        | some (cleaned, warnings) =>
          if label ∉ labelList then
            some (cleaned,
              ("Invalid label: \x27" ++ label ++ "\x27 - skipping") :: warnings)
          else
            match pyFloat confidence with
            | some q => some (⟨label, max 0 (min 1 q)⟩ :: cleaned, warnings)
            | none =>
              some (⟨label, 1/2⟩ :: cleaned,
                ("Invalid confidence for \x27" ++ label ++ "\x27 - using default 0.5")
                  :: warnings)
      | _ => none

/-- ResponseValidator.check_response_quality. -/
def check_response_quality (labelsData : List LabelConf) (minConfidence : ℚ) :
    Bool × List String :=
  match labelsData with
  | [] => (false, ["No labels predicted"])
  | _ =>
    let lowConf := (labelsData.filter fun it => it.confidence < minConfidence).map (·.label)
    let issues₁ : List String :=
      if lowConf.isEmpty then []
      else ["Low confidence labels: " ++ String.intercalate ", " lowConf]
    let issues₂ : List String :=
      if 4 < labelsData.length then
        issues₁ ++ ["Too many labels predicted: " ++ pyNatStr labelsData.length]
      else issues₁
    (issues₂.isEmpty, issues₂)

/-! ## Classification client (src/api_client.py, ChatGPTClient) -/

/-- The observable result of one (already retried) _make_api_call from the
point of view of classify_text: either an exception escaping the retry
wrapper, or a response carrying the returned text, its JSON decoding
(none when json.loads rejects it, covering the fence-stripping and
decoding step), and the reported token usage. -/
inductive CallResult where
  | exn (msg : String) : CallResult
  | ok (decoded : Option Json) (raw : String) (inputTokens outputTokens : ℕ) : CallResult

/-- The environment a classification call runs against: the completion
service behaviour per (title, description, content, use_fallback), the
cost table, the configured model names and the confidence threshold. -/
structure CallEnv where
  call : String → String → String → Bool → CallResult
  costOf : ℕ → ℕ → ℚ
  model : String
  fallbackModel : String
  threshold : ℚ

/-- Models the interpreter-generated message of the AttributeError raised
inside validate_labels (item.get on a non-dictionary or .strip on a
non-string) and caught by the classify_text handler. -/
def attrErrMsg : String := "AttributeError"

/-- The result dictionary of classify_text: the success form carries the
cleaned labels, model, cost, warnings, quality issues and raw response;
the failure form carries the error string plus the optional
validation_message and raw_response keys. -/
inductive CTRes where
  | ok (labels : List LabelConf) (modelUsed : String) (cost : ℚ)
      (warnings qualityIssues : List String) (raw : String) : CTRes
  | fail (error : String) (validationMessage : Option String)
      (rawResponse : Option String) : CTRes

/-- True exactly when classify_text returned success. -/
def CTRes.success : CTRes → Bool
  | .ok .. => true
  | .fail .. => false

/-- Models result.get with key error and default Unknown error, as used by
classify_batch when recording a permanent failure. -/
def CTRes.errorGet : CTRes → String
  | .fail e _ _ => e
  | .ok .. => "Unknown error"

/-- ChatGPTClient.classify_text.  The source catch-all except turns every
raised exception into a failure dictionary, so the model is total: an
exception from the API call surfaces its message, an invalid response
format fails with the diagnostic and the raw text preserved, and an
exception inside validate_labels surfaces the attribute error message. -/
def classify_text (env : CallEnv) (title description content : String)
    (useFallback : Bool) : CTRes :=
  let modelToUse := if useFallback then env.fallbackModel else env.model
  match env.call title description content useFallback with
  | .exn msg => .fail msg none none
  | .ok decoded raw inTok outTok =>
    let cost := env.costOf inTok outTok
    match validateResp decoded with
    | (none, vmsg) => .fail "Invalid response format" (some vmsg) (some raw)
    | (some items, _) =>
      match validate_labels items with
      | none => .fail attrErrMsg none none
      | some (cleaned, warnings) =>
        let quality := check_response_quality cleaned env.threshold
        .ok cleaned modelToUse cost warnings (if quality.1 then [] else quality.2) raw

/-- One prepared batch entry as built by DataProcessor.process_batch. -/
structure Prepared where
  index : ℕ
  title : String
  description : String
  content : String
  combined_text : String
deriving DecidableEq, Repr

/-- The metadata dictionary attached to a successful outcome by
classify_batch. -/
structure RMeta where
  model_used : String
  cost : ℚ
  warnings : List String
  quality_issues : List String
  used_fallback : Bool
deriving DecidableEq, Repr

/-- One entry of the result log produced by classify_batch.  A failure
entry has no labels key and an empty metadata dictionary, modelled by the
empty list and none; a success entry has no error key, modelled by none. -/
structure COutcome where
  index : ℕ
  success : Bool
  labels : List LabelConf
  metadata : Option RMeta
  error : Option String
deriving DecidableEq, Repr

/-- The per-record body of the classify_batch loop: a failed primary
attempt is retried exactly once with the fallback model; if that also
fails the recorded error comes from the primary result dictionary. -/
def classify_one (env : CallEnv) (d : Prepared) : COutcome :=
  match classify_text env d.title d.description d.content false with
  | .ok labels modelUsed cost warnings qualityIssues _ =>
    { index := d.index, success := true, labels := labels,
      metadata := some ⟨modelUsed, cost, warnings, qualityIssues, false⟩,
      error := none }
  | .fail e vmsg raw =>
    match classify_text env d.title d.description d.content true with
    | .ok labels modelUsed cost warnings qualityIssues _ =>
      { index := d.index, success := true, labels := labels,
        metadata := some ⟨modelUsed, cost, warnings, qualityIssues, true⟩,
        error := none }
    | .fail _ _ _ =>
      { index := d.index, success := false, labels := [],
        metadata := none,
        error := some (CTRes.errorGet (.fail e vmsg raw)) }

/-- ChatGPTClient.classify_batch: strictly sequential per-record
processing; the pacing sleeps do not affect the returned list. -/
def classify_batch (env : CallEnv) (batchData : List Prepared) : List COutcome :=
  batchData.map (classify_one env)

/-! ## Retry schedule of _make_api_call (retry decorator, tries 3,
delay 1, backoff 2, plus the rate-limit cooldown) -/

/-- What one attempt of the underlying completion call does. -/
inductive ApiAttempt where
  | ok : ApiAttempt
  | rateLimit : ApiAttempt
  | apiError : ApiAttempt
  | otherError : ApiAttempt
deriving DecidableEq

/-- The sleep performed inside the except handlers of _make_api_call
before the exception is re-raised: a fixed 60 second cooldown for a rate
limit error, nothing otherwise. -/
def innerSleep : ApiAttempt → List ℕ
  | .rateLimit => [60]
  | _ => []

/-- The retry decorator loop: on failure with more tries left it sleeps
the current delay and doubles it; the final failure re-raises without a
backoff sleep.  Returns (success, attempts made, sleep sequence in
seconds, in order). -/
def retryGo (env : ℕ → ApiAttempt) (k delay : ℕ) : ℕ → Bool × ℕ × List ℕ
  | 0 => (false, 0, [])
  | 1 =>
    match env k with
    | .ok => (true, 1, [])
    | e => (false, 1, innerSleep e)
  | tries + 2 =>
    match env k with
    | .ok => (true, 1, [])
    | e =>
      let rest := retryGo env (k + 1) (delay * 2) (tries + 1)
      (rest.1, rest.2.1 + 1, innerSleep e ++ [delay] ++ rest.2.2)

/-- _make_api_call under its retry decorator (tries 3, delay 1,
backoff 2), with the environment giving the outcome of each attempt. -/
def makeApiCallSchedule (env : ℕ → ApiAttempt) : Bool × ℕ × List ℕ :=
  retryGo env 0 1 3

/-! ## Record preparation (utils/validators.py DataValidator and
src/data_processor.py DataProcessor) -/

/-- One dataset row with the three required text columns. -/
structure Row where
  tieu_de : String
  description : String
  noi_dung : String
deriving DecidableEq, Repr

/-- DataValidator.validate_text_record: the four checks in source order;
the record is valid when the error list is empty. -/
def validate_text_record (title description content : String) :
    Bool × List String :=
  let errors :=
    (if title = "" ∨ (pyStrip title) = "" then ["Title is empty"] else [])
    ++ (if description = "" ∨ (pyStrip description) = "" then ["Description is empty"] else [])
    ++ (if content = "" ∨ (pyStrip content) = "" then ["Content is empty"] else [])
    ++ (if (pyStrip title).length < 5 then ["Title too short (< 5 characters)"] else [])
  (errors.isEmpty, errors)

/-- DataProcessor.prepare_text_for_api with the default
max_content_length of 2000: content is truncated with an ellipsis marker
and the three fields are combined into the fixed template. -/
def prepare_text_for_api (title description content : String) : String :=
  let cleanContent := if 2000 < content.length then content.take 2000 ++ "..." else content
  "TIÊU ĐỀ: " ++ title ++ "\n\nMÔ TẢ: " ++ description ++ "\n\nNỘI DUNG: " ++ cleanContent

/-- DataProcessor.process_batch: slice rows from start_idx up to
min(start_idx + batch_size, len(df)), keep exactly the rows that pass
validate_text_record, and prepare each kept row.  The per-record except
handler only covers dataframe access failures, which cannot occur on an
in-range index. -/
def process_batch (df : List Row) (startIdx batchSize : ℕ) : List Prepared :=
  let endIdx := min (startIdx + batchSize) df.length
  (List.range' startIdx (endIdx - startIdx)).filterMap fun idx =>
    match df[idx]? with
    | none => none
    | some row =>
      if (validate_text_record row.tieu_de row.description row.noi_dung).1 then
        some { index := idx, title := row.tieu_de, description := row.description,
               content := row.noi_dung,
               combined_text := prepare_text_for_api row.tieu_de row.description row.noi_dung }
      else none

/-! ## Batch orchestrator (src/batch_processor.py, BatchProcessor) -/

/-- The checkpoint record.  The timestamp fields carry no control state
and are omitted. -/
structure Checkpoint where
  last_processed_index : ℕ
  total_cost : ℚ
  processed_count : ℕ
  successful_count : ℕ
deriving DecidableEq, Repr

/-- The mutable state of one process_dataset run: the cursor, the
checkpoint dictionary, the persisted result log and the running
counters. -/
structure OrchState where
  current_index : ℕ
  checkpoint : Checkpoint
  results : List COutcome
  total_processed : ℕ
  total_successful : ℕ
  total_cost : ℚ
deriving DecidableEq, Repr

/-- What happens inside the try block of one loop iteration: the normal
path, an unexpected exception (modelled as raised at the classify_batch
call, before any outcome is recorded), or a user interrupt. -/
inductive BatchEvent where
  | normal : BatchEvent
  | raiseExn : BatchEvent
  | interrupt : BatchEvent
deriving DecidableEq

/-- The fixed data of one process_dataset run. -/
structure OrchParams where
  df : List Row
  batch_size : ℕ
  end_index : ℕ
  env : CallEnv
  event : ℕ → BatchEvent

/-- Models r.get(metadata, empty).get(cost, 0). -/
def metaCost (o : COutcome) : ℚ :=
  match o.metadata with
  | some m => m.cost
  | none => 0

/-- One iteration of the while loop of process_dataset (lines 151-206):
interrupt breaks the loop (none); an unexpected exception advances the
cursor by the configured batch_size and continues; an empty valid slice
advances by the attempted slice width; otherwise the batch is classified,
the outcomes are appended to the log, the checkpoint is updated and the
cursor advances by the number of records actually attempted. -/
def orchStep (P : OrchParams) (s : OrchState) : Option OrchState :=
  match P.event s.current_index with
  | .interrupt => none
  | .raiseExn => some { s with current_index := s.current_index + P.batch_size }
  | .normal =>
    let actualBatchSize := min P.batch_size (P.end_index - s.current_index)
    let batchData := process_batch P.df s.current_index actualBatchSize
    if batchData.isEmpty then
      some { s with current_index := s.current_index + actualBatchSize }
    else
      let batchResults := classify_batch P.env batchData
      let successfulInBatch := (batchResults.filter (·.success)).length
      let batchCost := ((batchResults.filter (·.success)).map metaCost).sum
      let totalProcessed := s.total_processed + batchResults.length
      let totalSuccessful := s.total_successful + successfulInBatch
      let totalCost := s.total_cost + batchCost
      some {
        current_index := s.current_index + batchData.length,
        checkpoint := {
          last_processed_index := s.current_index + batchData.length,
          total_cost := totalCost,
          processed_count := totalProcessed,
          successful_count := totalSuccessful },
        results := s.results ++ batchResults,
        total_processed := totalProcessed,
        total_successful := totalSuccessful,
        total_cost := totalCost }

/-- The while loop of process_dataset, driven by fuel.  Each iteration
advances the cursor by at least one when the batch size is positive, so
end_index - start_index units of fuel always complete the loop. -/
def orchRun (P : OrchParams) (s : OrchState) : ℕ → OrchState
  | 0 => s
  | fuel + 1 =>
    if s.current_index < P.end_index then
      match orchStep P s with
      | none => s
      | some s2 => orchRun P s2 fuel
    else s

/-- The state at the top of the loop: the cursor starts at the explicit
override or at the loaded checkpoint cursor, the run counters start at
zero, and the running cost starts at the loaded total. -/
def initState (loaded : Checkpoint) (startFrom : Option ℕ) : OrchState :=
  { current_index := startFrom.getD loaded.last_processed_index,
    checkpoint := loaded,
    results := [],
    total_processed := 0,
    total_successful := 0,
    total_cost := loaded.total_cost }

/-! ## Final CSV join (BatchProcessor.create_final_csv) -/

/-- The four columns appended to the original dataset; the original
columns pass through unchanged and carry no logic, so only the appended
columns are modelled. -/
structure FinalCols where
  predicted_labels : String
  prediction_confidence : String
  model_used : String
  classification_success : Bool
deriving DecidableEq, Repr

/-- Models the f-string format .2f for the nonnegative confidences that
occur here, rounding half-up to two decimal places. -/
def format2 (q : ℚ) : String :=
  let n := (100 * q + 1/2).floor.toNat
  pyNatStr (n / 100) ++ "." ++ (if n % 100 < 10 then "0" else "") ++ pyNatStr (n % 100)

/-- The dict comprehension building results_dict: later entries with the
same index overwrite earlier ones. -/
def resultsDict (results : List COutcome) : ℕ → Option COutcome :=
  results.foldl (fun m r => fun i => if i = r.index then some r else m i) (fun _ => none)

/-- The default column values assigned before the join loop. -/
def defaultCols : FinalCols := ⟨"", "", "", false⟩

/-- The body of the join loop for one row whose index has a matching
result: only a successful result fills the columns. -/
def fillCols (r : COutcome) : FinalCols :=
  if r.success then
    { predicted_labels := String.intercalate "; " (r.labels.map (·.label)),
      prediction_confidence :=
        String.intercalate "; " (r.labels.map fun l => format2 l.confidence),
      model_used := (r.metadata.map (·.model_used)).getD "",
      classification_success := true }
  else defaultCols

/-- BatchProcessor.create_final_csv restricted to the appended columns:
one entry per original row index. -/
def create_final_csv (n : ℕ) (results : List COutcome) : List FinalCols :=
  (List.range n).map fun idx =>
    match resultsDict results idx with
    | some r => fillCols r
    | none => defaultCols

/-! ## The four JSON response shapes (for the shape-equivalence property) -/

/-- The canonical JSON object for one (label, confidence) pair. -/
def itemOf (p : String × ℚ) : Json :=
  .obj [("label", .str p.1), ("confidence", .num p.2)]

/-- Shape a: a direct JSON array of label objects. -/
def encArray (L : List (String × ℚ)) : Json :=
  .arr (L.map itemOf)

/-- Shape b: the array wrapped in an object under one known key. -/
def encKnownKey (k : String) (L : List (String × ℚ)) : Json :=
  .obj [(k, .arr (L.map itemOf))]

/-- Wraps a value in single-field objects, one per key, outermost first. -/
def nestObj : List String → Json → Json
  | [], v => v
  | k :: ks, v => .obj [(k, nestObj ks v)]

/-- Shape c: the array nested under a chain of unknown keys. -/
def encNested (ks : List String) (L : List (String × ℚ)) : Json :=
  nestObj ks (.arr (L.map itemOf))

/-- The flat field list label1, confidence1, label2, confidence2, ...
starting at index m. -/
def numberedFields (m : ℕ) : List (String × ℚ) → List (String × Json)
  | [] => []
  | p :: rest =>
    ("label" ++ pyNatStr m, .str p.1) :: ("confidence" ++ pyNatStr m, .num p.2)
      :: numberedFields (m + 1) rest

/-- Shape d, numbered variant: a flat object of label{i}/confidence{i}
pairs numbered from 1. -/
def encNumbered (L : List (String × ℚ)) : Json :=
  .obj (numberedFields 1 L)

/-- Shape d, substring variant: a flat object pairing a given list of
label-substring keys with the labels and a given list of
confidence-substring keys with the confidences. -/
def encFlatKeys (lks cks : List String) (L : List (String × ℚ)) : Json :=
  .obj (lks.zip (L.map fun p => Json.str p.1) ++ cks.zip (L.map fun p => Json.num p.2))

/-! ## Concrete fixtures used by witnesses and counterexamples -/

/-- A row whose trimmed title has fewer than five characters, hence
rejected by validate_text_record. -/
def rowShort : Row := ⟨"Hi", "Mô tả chung", "Nội dung bài viết"⟩

/-- A row passing every check of validate_text_record. -/
def rowOk : Row := ⟨"Tiêu đề dài", "Mô tả chung", "Nội dung bài viết"⟩

/-- An environment in which every completion call raises, with distinct
messages for the primary and the fallback attempt. -/
def envBoom : CallEnv :=
  { call := fun _ _ _ useFallback =>
      .exn (if useFallback then "fallback boom" else "primary boom"),
    costOf := fun _ _ => 0,
    model := "gpt-main", fallbackModel := "gpt-fb", threshold := 7/10 }

/-- Run parameters over the two fixture rows with batch size 2 and no
interrupts or unexpected exceptions. -/
def exampleParams : OrchParams :=
  { df := [rowShort, rowOk], batch_size := 2, end_index := 2,
    env := envBoom, event := fun _ => .normal }

/-- A fresh-checkpoint initial state resuming from index 0. -/
def exampleInit : OrchState := initState ⟨0, 0, 0, 0⟩ none

/-- The fixture run with every iteration raising an unexpected exception. -/
def exampleRaiseParams : OrchParams := { exampleParams with event := fun _ => .raiseExn }

/-- A prepared record fixture. -/
def dFix : Prepared := ⟨0, "t", "d", "c", "x"⟩

/-- A result log fixture with a duplicated index: a success at index 0
overridden by a later failure at the same index. -/
def witnessOutcomes : List COutcome :=
  [{ index := 0, success := true, labels := [⟨"Khác", 1⟩],
     metadata := some ⟨"gpt-main", 0, [], [], false⟩, error := none },
   { index := 0, success := false, labels := [], metadata := none, error := some "x" }]

/-! # Theorems -/

/-- If finishItems accepts, the returned list is the candidate list and
the item loop passed. -/
lemma finishItems_some {xs items : List Json} {msg : String}
    (h : finishItems xs = (some items, msg)) :
    items = xs ∧ checkItems xs 0 = none := by
  unfold finishItems at h
  split at h
  · simp at h
  · rename_i hc
    cases h
    exact ⟨rfl, hc⟩

/-- Whatever shape handler produced the labels, a valid parse means the
item loop passed on the returned list. -/
lemma validateParsed_some_checkItems :
    ∀ parsed items msg, validateParsed parsed = (some items, msg) →
      checkItems items 0 = none := by
  intro parsed items msg h
  unfold validateParsed at h
  split at h
  · obtain ⟨rfl, hc⟩ := finishItems_some h; exact hc
  · split at h
    · obtain ⟨rfl, hc⟩ := finishItems_some h; exact hc
    · split at h
      · obtain ⟨rfl, hc⟩ := finishItems_some h; exact hc
      · split at h
        · obtain ⟨rfl, hc⟩ := finishItems_some h; exact hc
        · simp at h
  · simp at h

/-- Every item surviving the checkItems loop is a dictionary with label
and confidence fields whose float coercion lands in the unit interval. -/
lemma checkItems_none_mem :
    ∀ (items : List Json) (i : ℕ), checkItems items i = none →
      ∀ item ∈ items, item.isObj = true ∧ item.hasKey "label" = true ∧
        ∃ cv q, item.lookup "confidence" = some cv ∧ pyFloat cv = some q ∧
          0 ≤ q ∧ q ≤ 1 := by
  intro items
  induction items with
  | nil => simp
  | cons a rest ih =>
    intro i h item hmem
    rw [checkItems] at h
    by_cases hobj : a.isObj = true
    case neg => simp [hobj] at h
    case pos =>
    by_cases hlab : a.hasKey "label" = true
    case neg => simp [hobj, hlab] at h
    case pos =>
    by_cases hconf : a.hasKey "confidence" = true
    case neg => simp [hobj, hlab, hconf] at h
    case pos =>
    simp only [hobj, hlab, hconf, not_true_eq_false, if_false] at h
    rcases hq : (a.lookup "confidence").bind pyFloat with _ | q
    · rw [hq] at h; exact absurd h (by simp)
    · rw [hq] at h
      by_cases hr : 0 ≤ q ∧ q ≤ 1
      case neg => simp [hr] at h
      case pos =>
      simp only [hr, not_true_eq_false, if_false] at h
      rcases List.mem_cons.mp hmem with rfl | hmem2
      · refine ⟨hobj, hlab, ?_⟩
        rcases hcv : item.lookup "confidence" with _ | cv
        · rw [hcv] at hq; exact absurd hq (by simp)
        · rw [hcv] at hq
          rw [Option.some_bind] at hq
          exact ⟨cv, q, rfl, hq, hr.1, hr.2⟩
      · exact ih (i + 1) h item hmem2

/-- An out-of-range confidence makes the item loop fail with the range
diagnostic. -/
lemma checkItems_neg3 : checkItems [Json.obj [("label", Json.str "X"),
    ("confidence", Json.num (-3/10))]] 0 =
    some ("Item 0 confidence must be between 0.0 and 1.0") := by
  rw [checkItems]
  simp only [show (Json.obj [("label", Json.str "X"),
      ("confidence", Json.num (-3/10))]).isObj = true from rfl,
    show (Json.obj [("label", Json.str "X"),
      ("confidence", Json.num (-3/10))]).hasKey "label" = true from rfl,
    show (Json.obj [("label", Json.str "X"),
      ("confidence", Json.num (-3/10))]).hasKey "confidence" = true from rfl,
    show ((Json.obj [("label", Json.str "X"),
      ("confidence", Json.num (-3/10))]).lookup "confidence").bind pyFloat
      = some ((-3:ℚ)/10) from rfl,
    not_true, if_false]
  rw [if_pos (by norm_num)]
  rfl

/-- A confidence above one makes the item loop fail with the range
diagnostic. -/
lemma checkItems_17 : checkItems [Json.obj [("label", Json.str "X"),
    ("confidence", Json.num (17/10))]] 0 =
    some ("Item 0 confidence must be between 0.0 and 1.0") := by
  rw [checkItems]
  simp only [show (Json.obj [("label", Json.str "X"),
      ("confidence", Json.num (17/10))]).isObj = true from rfl,
    show (Json.obj [("label", Json.str "X"),
      ("confidence", Json.num (17/10))]).hasKey "label" = true from rfl,
    show (Json.obj [("label", Json.str "X"),
      ("confidence", Json.num (17/10))]).hasKey "confidence" = true from rfl,
    show ((Json.obj [("label", Json.str "X"),
      ("confidence", Json.num (17/10))]).lookup "confidence").bind pyFloat
      = some ((17:ℚ)/10) from rfl,
    not_true, if_false]
  rw [if_pos (by norm_num)]
  rfl

/-- C9: whenever validate_json_response returns is_valid = true, every
returned item is a dictionary with a label field and a confidence field
whose float coercion lands in the closed unit interval, so the clamping
in validate_labels is the identity on it; and an out-of-range confidence
such as -0.3 or 1.7 fails parsing with the range diagnostic. -/
theorem c9_valid_items_confidence_in_range :
    (∀ parsed items msg, validateParsed parsed = (some items, msg) →
      ∀ item ∈ items, item.isObj = true ∧ item.hasKey "label" = true ∧
        ∃ cv q, item.lookup "confidence" = some cv ∧ pyFloat cv = some q ∧
          0 ≤ q ∧ q ≤ 1 ∧ max 0 (min 1 q) = q) ∧
    validateParsed (Json.arr [Json.obj [("label", Json.str "X"),
        ("confidence", Json.num (-3/10))]]) =
      (none, "Item 0 confidence must be between 0.0 and 1.0") ∧
    validateParsed (Json.arr [Json.obj [("label", Json.str "X"),
        ("confidence", Json.num (17/10))]]) =
      (none, "Item 0 confidence must be between 0.0 and 1.0") := by
  refine ⟨?_, ?_, ?_⟩
  · intro parsed items msg h item hmem
    obtain ⟨h1, h2, cv, q, hcv, hq, hq0, hq1⟩ :=
      checkItems_none_mem items 0 (validateParsed_some_checkItems parsed items msg h) item hmem
    exact ⟨h1, h2, cv, q, hcv, hq, hq0, hq1,
      by rw [min_eq_right hq1, max_eq_right hq0]⟩
  · show finishItems _ = _
    unfold finishItems
    rw [checkItems_neg3]
  · show finishItems _ = _
    unfold finishItems
    rw [checkItems_17]

/-- Witness for C9 at a concrete in-range payload. -/
theorem c9_witness :
    (Json.obj [("label", Json.str "X"), ("confidence", Json.num 1)]).isObj = true ∧
    (Json.obj [("label", Json.str "X"), ("confidence", Json.num 1)]).hasKey "label" = true ∧
    ∃ cv q, (Json.obj [("label", Json.str "X"),
        ("confidence", Json.num 1)]).lookup "confidence" = some cv ∧
      pyFloat cv = some q ∧ 0 ≤ q ∧ q ≤ 1 ∧ max 0 (min 1 q) = q :=
  c9_valid_items_confidence_in_range.1
    (Json.arr [Json.obj [("label", Json.str "X"), ("confidence", Json.num 1)]])
    [Json.obj [("label", Json.str "X"), ("confidence", Json.num 1)]] "Valid"
    rfl
    (Json.obj [("label", Json.str "X"), ("confidence", Json.num 1)])
    (by simp)

/-- C6 counterexample: an entry with a valid label and no confidence key
is kept with confidence 0.0 and no warning, not with the claimed 0.5 and
a warning. -/
theorem c6_counterexample :
    validate_labels [Json.obj [("label", Json.str "Khác")]] =
      some ([⟨"Khác", 0⟩], []) ∧ (0 : ℚ) ≠ 1/2 := by
  constructor
  · have hk : pyStrip "Khác" = "Khác" := by decide
    simp [validate_labels, Json.isObj, Json.lookup, List.lookup, labelList, pyFloat, hk]
  · norm_num

/-- C6 as amended: a valid plus an invalid label give exactly one cleaned
entry and one warning; a numeric confidence is clamped into the unit
interval; a present non-numeric confidence becomes 0.5 with a warning; a
missing confidence defaults to 0.0 silently. -/
theorem c6_validate_labels_amended :
    (∀ l₁ c₁ l₂ c₂ q, pyStrip l₁ ∈ labelList → pyStrip l₂ ∉ labelList →
      pyFloat c₁ = some q →
      validate_labels
        [Json.obj [("label", Json.str l₁), ("confidence", c₁)],
         Json.obj [("label", Json.str l₂), ("confidence", c₂)]] =
        some ([⟨pyStrip l₁, max 0 (min 1 q)⟩],
          ["Invalid label: \x27" ++ pyStrip l₂ ++ "\x27 - skipping"])) ∧
    (∀ l q, pyStrip l ∈ labelList →
      validate_labels [Json.obj [("label", Json.str l), ("confidence", Json.num q)]] =
        some ([⟨pyStrip l, max 0 (min 1 q)⟩], [])) ∧
    (∀ l c, pyStrip l ∈ labelList → pyFloat c = none →
      validate_labels [Json.obj [("label", Json.str l), ("confidence", c)]] =
        some ([⟨pyStrip l, 1/2⟩],
          ["Invalid confidence for \x27" ++ pyStrip l ++ "\x27 - using default 0.5"])) ∧
    (∀ l, pyStrip l ∈ labelList →
      validate_labels [Json.obj [("label", Json.str l)]] = some ([⟨pyStrip l, 0⟩], [])) := by
  refine ⟨?_, ?_, ?_, ?_⟩
  · intro l₁ c₁ l₂ c₂ q h1 h2 hq
    simp [validate_labels, Json.isObj, Json.lookup, List.lookup, h1, h2, hq]
  · intro l q h
    simp [validate_labels, Json.isObj, Json.lookup, List.lookup, h, pyFloat]
  · intro l c h hc
    simp [validate_labels, Json.isObj, Json.lookup, List.lookup, h, hc]
  · intro l h
    simp [validate_labels, Json.isObj, Json.lookup, List.lookup, h, pyFloat]

/-- Witness for the amended C6: clamping at 1.7 and the mixed
valid-invalid pair. -/
theorem c6_witness :
    (validate_labels [Json.obj [("label", Json.str "Khác"),
        ("confidence", Json.num (17/10))]] =
      some ([⟨pyStrip "Khác", max 0 (min 1 (17/10))⟩], []) ∧
      max (0:ℚ) (min 1 (17/10)) = 1) ∧
    validate_labels
      [Json.obj [("label", Json.str "Môi trường"), ("confidence", Json.num (-3/10))],
       Json.obj [("label", Json.str "Nope"), ("confidence", Json.num 1)]] =
      some ([⟨pyStrip "Môi trường", max 0 (min 1 (-3/10))⟩],
        ["Invalid label: \x27" ++ pyStrip "Nope" ++ "\x27 - skipping"]) :=
  ⟨⟨c6_validate_labels_amended.2.1 "Khác" (17/10) (by decide), by norm_num⟩,
    c6_validate_labels_amended.1 "Môi trường" (Json.num (-3/10)) "Nope" (Json.num 1)
      (-3/10) (by decide) (by decide) rfl⟩

/-- C10: when both the primary and the fallback classification fail, the
recorded outcome carries the error string of the primary attempt. -/
theorem c10_error_from_primary :
    ∀ env (d : Prepared) e vmsg raw e2 vmsg2 raw2,
      classify_text env d.title d.description d.content false = .fail e vmsg raw →
      classify_text env d.title d.description d.content true = .fail e2 vmsg2 raw2 →
      (classify_one env d).success = false ∧ (classify_one env d).error = some e := by
  intro env d e vmsg raw e2 vmsg2 raw2 h1 h2
  simp [classify_one, h1, h2, CTRes.errorGet]

/-- Witness for C10: the fallback message is discarded. -/
theorem c10_witness :
    (classify_one envBoom dFix).success = false ∧
    (classify_one envBoom dFix).error = some "primary boom" :=
  c10_error_from_primary envBoom dFix "primary boom" none none
    "fallback boom" none none rfl rfl

/-- C5: the retried _make_api_call makes up to three attempts with
backoff delays of one then two seconds, and a rate-limited attempt adds a
fixed sixty second sleep before the re-raise, outside the backoff
schedule. -/
theorem c5_retry_schedule :
    ∀ env : ℕ → ApiAttempt,
      (env 0 = .ok → makeApiCallSchedule env = (true, 1, [])) ∧
      (env 0 ≠ .ok → env 1 = .ok →
        makeApiCallSchedule env = (true, 2, innerSleep (env 0) ++ [1])) ∧
      (env 0 ≠ .ok → env 1 ≠ .ok → env 2 = .ok →
        makeApiCallSchedule env =
          (true, 3, innerSleep (env 0) ++ [1] ++ (innerSleep (env 1) ++ [2]))) ∧
      (env 0 ≠ .ok → env 1 ≠ .ok → env 2 ≠ .ok →
        makeApiCallSchedule env =
          (false, 3, innerSleep (env 0) ++ [1] ++ (innerSleep (env 1) ++ [2]
            ++ innerSleep (env 2)))) := by
  intro env
  refine ⟨fun h0 => ?_, fun h0 h1 => ?_, fun h0 h1 h2 => ?_, fun h0 h1 h2 => ?_⟩ <;>
    cases e0 : env 0 <;> cases e1 : env 1 <;> cases e2 : env 2 <;>
      simp_all [makeApiCallSchedule, retryGo, innerSleep]

/-- Witness for C5: three rate-limited attempts sleep 60, 1, 60, 2, 60. -/
theorem c5_witness :
    makeApiCallSchedule (fun _ => ApiAttempt.rateLimit) =
      (false, 3, [60] ++ [1] ++ ([60] ++ [2] ++ [60])) :=
  ((c5_retry_schedule (fun _ => ApiAttempt.rateLimit)).2.2.2)
    (by decide) (by decide) (by decide)

/-- C4: an unexpected exception in a batch iteration advances the cursor
by the full configured batch_size, records no outcomes, leaves the
checkpoint untouched, and the loop continues with the next batch. -/
theorem c4_exception_skips_batch :
    ∀ P s, P.event s.current_index = .raiseExn →
      orchStep P s = some { s with current_index := s.current_index + P.batch_size } ∧
      ∀ fuel, s.current_index < P.end_index →
        orchRun P s (fuel + 1) =
          orchRun P { s with current_index := s.current_index + P.batch_size } fuel := by
  intro P s h
  constructor
  · simp [orchStep, h]
  · intro fuel hlt
    simp [orchRun, hlt, orchStep, h]

/-- Witness for C4 on the fixture run. -/
theorem c4_witness :
    orchStep exampleRaiseParams exampleInit =
      some { exampleInit with
        current_index := exampleInit.current_index + exampleRaiseParams.batch_size } :=
  (c4_exception_skips_batch exampleRaiseParams exampleInit rfl).1

/-- classify_batch records each outcome under the index of its input
record. -/
lemma classify_one_index (env : CallEnv) (d : Prepared) :
    (classify_one env d).index = d.index := by
  unfold classify_one
  rcases classify_text env d.title d.description d.content false with _ | _
  · rfl
  · rcases classify_text env d.title d.description d.content true with _ | _ <;> rfl

/-- Every failure dictionary built by classify_text carries a non-empty
error string, provided the environment raises with non-empty messages. -/
lemma classify_text_fail_error_ne (env : CallEnv) (t d c : String) (uf : Bool)
    (henv : ∀ t d c uf msg, env.call t d c uf = .exn msg → msg ≠ "")
    {e vmsg raw} (h : classify_text env t d c uf = .fail e vmsg raw) : e ≠ "" := by
  unfold classify_text at h
  rcases hc : env.call t d c uf with msg | ⟨dec, raw2, it, ot⟩
  · rw [hc] at h
    dsimp only [] at h
    injection h with h1
    exact h1 ▸ henv t d c uf msg hc
  · rw [hc] at h
    dsimp only [] at h
    rcases hv : validateResp dec with ⟨_ | items, vmsg2⟩
    · rw [hv] at h
      injection h with h1
      subst h1
      decide
    · rw [hv] at h
      dsimp only [] at h
      rcases hl : validate_labels items with _ | ⟨cleaned, warnings⟩
      · rw [hl] at h
        injection h with h1
        subst h1
        decide
      · rw [hl] at h
        simp at h

/-- C2: classify_batch yields exactly one outcome per input record and
never raises; a failed primary attempt is retried exactly once with the
fallback model, and a double failure is recorded with success = false and
a non-empty error string. -/
theorem c2_classify_batch :
    ∀ env batchData,
      (∀ t d c uf msg, env.call t d c uf = .exn msg → msg ≠ "") →
      (classify_batch env batchData).length = batchData.length ∧
      (∀ (k : ℕ) (d : Prepared), batchData[k]? = some d →
        ∃ (o : COutcome), (classify_batch env batchData)[k]? = some o ∧ o.index = d.index ∧
          (∀ labels mu cost w qi raw,
            classify_text env d.title d.description d.content false =
              .ok labels mu cost w qi raw →
            o.success = true ∧ o.labels = labels) ∧
          (∀ e vmsg raw,
            classify_text env d.title d.description d.content false = .fail e vmsg raw →
            (∀ labels mu cost w qi raw2,
               classify_text env d.title d.description d.content true =
                 .ok labels mu cost w qi raw2 →
               o.success = true ∧ o.labels = labels ∧
               ∃ (m : RMeta), o.metadata = some m ∧ m.used_fallback = true) ∧
            (∀ e2 vmsg2 raw2,
               classify_text env d.title d.description d.content true =
                 .fail e2 vmsg2 raw2 →
               o.success = false ∧ o.error = some e ∧ e ≠ ""))) := by
  intro env batchData henv
  refine ⟨by simp [classify_batch], ?_⟩
  intro k d hk
  refine ⟨classify_one env d, ?_, classify_one_index env d, ?_, ?_⟩
  · simp [classify_batch, List.getElem?_map, hk]
  · intro labels mu cost w qi raw h1
    simp [classify_one, h1]
  · intro e vmsg raw h1
    constructor
    · intro labels mu cost w qi raw2 h2
      simp [classify_one, h1, h2]
    · intro e2 vmsg2 raw2 h2
      refine ⟨?_, ?_, classify_text_fail_error_ne env d.title d.description d.content false henv h1⟩
      · simp [classify_one, h1, h2]
      · simp [classify_one, h1, h2, CTRes.errorGet]

/-- Witness for C2 on a concrete always-failing environment. -/
theorem c2_witness :
    (classify_batch envBoom [dFix]).length = [dFix].length :=
  (c2_classify_batch envBoom [dFix]
    (fun t d c uf msg h => by
      cases uf <;>
        · injection h with h1
          subst h1
          decide)).1

/-- Every prepared record handed to the client comes from a dataset row
that passed validate_text_record. -/
lemma process_batch_mem_char :
    ∀ df startIdx batchSize (p : Prepared), p ∈ process_batch df startIdx batchSize →
      ∃ row, df[p.index]? = some row ∧
        (validate_text_record row.tieu_de row.description row.noi_dung).1 = true ∧
        p.title = row.tieu_de ∧ p.description = row.description ∧
        p.content = row.noi_dung := by
  intro df startIdx batchSize p hp
  unfold process_batch at hp
  rw [List.mem_filterMap] at hp
  obtain ⟨idx, _, hf⟩ := hp
  rcases hrow : df[idx]? with _ | row
  · rw [hrow] at hf; exact absurd hf (by simp)
  · rw [hrow] at hf
    dsimp only [] at hf
    by_cases hv : (validate_text_record row.tieu_de row.description row.noi_dung).1 = true
    · rw [if_pos hv] at hf
      injection hf with hf
      subst hf
      exact ⟨row, hrow, hv, rfl, rfl, rfl⟩
    · rw [if_neg hv] at hf
      exact absurd hf (by simp)

/-- C7: a row failing validate_text_record is excluded during record
preparation: process_batch returns only passing rows, and no outcome for
the rejected index is ever produced by classify_batch. -/
theorem c7_invalid_rows_excluded :
    ∀ df startIdx batchSize env,
      (∀ p ∈ process_batch df startIdx batchSize,
        ∃ row, df[p.index]? = some row ∧
          (validate_text_record row.tieu_de row.description row.noi_dung).1 = true ∧
          p.title = row.tieu_de ∧ p.description = row.description ∧
          p.content = row.noi_dung) ∧
      (∀ idx row, df[idx]? = some row →
        (validate_text_record row.tieu_de row.description row.noi_dung).1 = false →
        (∀ p ∈ process_batch df startIdx batchSize, p.index ≠ idx) ∧
        (∀ o ∈ classify_batch env (process_batch df startIdx batchSize), o.index ≠ idx)) := by
  intro df startIdx batchSize env
  constructor
  · intro p hp
    exact process_batch_mem_char df startIdx batchSize p hp
  · intro idx row hrow hbad
    have hPrep : ∀ p ∈ process_batch df startIdx batchSize, p.index ≠ idx := by
      intro p hp heq
      obtain ⟨row2, hrow2, hv2, -⟩ := process_batch_mem_char df startIdx batchSize p hp
      rw [heq, hrow] at hrow2
      injection hrow2 with hr
      rw [hr] at hbad
      rw [hv2] at hbad
      exact Bool.true_eq_false.mp hbad
    refine ⟨hPrep, ?_⟩
    intro o ho
    unfold classify_batch at ho
    rw [List.mem_map] at ho
    obtain ⟨p, hp, rfl⟩ := ho
    rw [classify_one_index]
    exact hPrep p hp

/-- Witness for C7: the too-short fixture row contributes no prepared
record. -/
theorem c7_witness :
    ∀ p ∈ process_batch exampleParams.df 0 2, p.index ≠ 0 :=
  ((c7_invalid_rows_excluded exampleParams.df 0 2 envBoom).2 0 rowShort rfl
    (by decide)).1

/-- The dict comprehension over the result log keeps, for each index,
exactly the last outcome bearing that index. -/
lemma resultsDict_eq_lastMatch :
    ∀ (rs : List COutcome) (idx : ℕ),
      resultsDict rs idx = (rs.filter fun r => r.index == idx).getLast? := by
  intro rs
  induction rs using List.reverseRecOn with
  | nil => intro idx; rfl
  | append_singleton rs r ih =>
    intro idx
    unfold resultsDict
    rw [List.foldl_append]
    show (if idx = r.index then some r else resultsDict rs idx) = _
    rw [List.filter_append]
    by_cases h : r.index = idx
    · subst h
      have hf : (List.filter (fun x => x.index == r.index) [r]) = [r] := by
        simp [List.filter_singleton]
      rw [hf, List.getLast?_concat, if_pos rfl]
    · have hf : (List.filter (fun x => x.index == idx) [r]) = [] := by
        simp [List.filter_singleton, h]
      rw [hf, List.append_nil, if_neg (fun hh => h hh.symm)]
      exact ih idx

/-- C8: create_final_csv joins by row index with last-write-wins on
duplicated indices; a matched successful outcome fills the joined label
list, the two-decimal confidence list, the model used and a true success
flag, and every other row keeps the empty defaults with a false flag. -/
theorem c8_final_csv_join :
    ∀ n (rs : List COutcome) (idx : ℕ), idx < n →
      (create_final_csv n rs)[idx]? = some (
        match (rs.filter fun r => r.index == idx).getLast? with
        | some r =>
          if r.success then
            { predicted_labels := String.intercalate "; " (r.labels.map (·.label)),
              prediction_confidence :=
                String.intercalate "; " (r.labels.map fun l => format2 l.confidence),
              model_used := (r.metadata.map (·.model_used)).getD "",
              classification_success := true }
          else defaultCols
        | none => defaultCols) := by
  intro n rs idx h
  unfold create_final_csv
  rw [List.getElem?_map, List.getElem?_range h, Option.map_some']
  rw [resultsDict_eq_lastMatch]
  rcases hlast : (rs.filter fun r => r.index == idx).getLast? with _ | r
  · rw [hlast]
  · rw [hlast]
    show some (fillCols r) = _
    unfold fillCols
    by_cases hs : r.success <;> simp [hs]

/-- Witness for C8 on the duplicated-index fixture log. -/
theorem c8_witness :
    (create_final_csv 2 witnessOutcomes)[0]? = some (
      match (witnessOutcomes.filter fun r => r.index == 0).getLast? with
      | some r =>
        if r.success then
          { predicted_labels := String.intercalate "; " (r.labels.map (·.label)),
            prediction_confidence :=
              String.intercalate "; " (r.labels.map fun l => format2 l.confidence),
            model_used := (r.metadata.map (·.model_used)).getD "",
            classification_success := true }
        else defaultCols
      | none => defaultCols) :=
  c8_final_csv_join 2 witnessOutcomes 0 (by decide)

/-- One loop iteration never decreases the stored cursor, keeps it below
or at the live cursor, and a checkpoint-updating iteration stores exactly
the new live cursor, which advanced by the number of valid records in the
slice. -/
lemma orchStep_checkpoint_inv :
    ∀ P s s', s.checkpoint.last_processed_index ≤ s.current_index →
      orchStep P s = some s' →
      s.checkpoint.last_processed_index ≤ s'.checkpoint.last_processed_index ∧
      s'.checkpoint.last_processed_index ≤ s'.current_index ∧
      s.current_index ≤ s'.current_index ∧
      (P.event s.current_index = BatchEvent.normal →
        (process_batch P.df s.current_index
          (min P.batch_size (P.end_index - s.current_index))).isEmpty = false →
        s'.checkpoint.last_processed_index = s'.current_index ∧
        s'.current_index = s.current_index +
          (process_batch P.df s.current_index
            (min P.batch_size (P.end_index - s.current_index))).length) := by
  intro P s s' hinv h
  unfold orchStep at h
  rcases hev : P.event s.current_index with _ | _ | _ <;> rw [hev] at h
  case interrupt => exact absurd h (by simp)
  case raiseExn =>
    injection h with h
    subst h
    refine ⟨le_refl _, le_trans hinv (Nat.le_add_right _ _), Nat.le_add_right _ _, ?_⟩
    intro hc
    exact absurd hc (by simp [hev])
  case normal =>
    dsimp only [] at h
    by_cases he : (process_batch P.df s.current_index
        (min P.batch_size (P.end_index - s.current_index))).isEmpty
    · rw [if_pos he] at h
      injection h with h
      subst h
      refine ⟨le_refl _, le_trans hinv (Nat.le_add_right _ _), Nat.le_add_right _ _, ?_⟩
      intro _ hne
      rw [he] at hne
      exact absurd hne (by simp)
    · rw [if_neg he] at h
      injection h with h
      subst h
      refine ⟨le_trans hinv (Nat.le_add_right _ _), le_refl _, Nat.le_add_right _ _, ?_⟩
      intro _ _
      exact ⟨rfl, rfl⟩

/-- C1 as amended: during a run whose stored cursor starts at or below
the live cursor, last_processed_index is monotonically non-decreasing,
never exceeds the live cursor, and after each checkpoint-updating batch
iteration equals the new live cursor, that is, the run start index plus
the total cursor advance so far, where a normal iteration advances by the
number of validation-passing records in its slice rather than by the
attempted slice width. -/
theorem c1_checkpoint_amended :
    ∀ P (s : OrchState) (fuel : ℕ), s.checkpoint.last_processed_index ≤ s.current_index →
      (s.checkpoint.last_processed_index ≤
          (orchRun P s fuel).checkpoint.last_processed_index ∧
        (orchRun P s fuel).checkpoint.last_processed_index ≤
          (orchRun P s fuel).current_index) ∧
      (∀ s', orchStep P s = some s' →
        s.checkpoint.last_processed_index ≤ s'.checkpoint.last_processed_index ∧
        (P.event s.current_index = BatchEvent.normal →
          (process_batch P.df s.current_index
            (min P.batch_size (P.end_index - s.current_index))).isEmpty = false →
          s'.checkpoint.last_processed_index = s'.current_index ∧
          s'.current_index = s.current_index + (process_batch P.df s.current_index
            (min P.batch_size (P.end_index - s.current_index))).length)) := by
  intro P s fuel
  induction fuel generalizing s with
  | zero =>
    intro hinv
    refine ⟨⟨le_refl _, hinv⟩, ?_⟩
    intro s' hstep
    obtain ⟨h1, h2, h3, h4⟩ := orchStep_checkpoint_inv P s s' hinv hstep
    exact ⟨h1, h4⟩
  | succ fuel ih =>
    intro hinv
    refine ⟨?_, ?_⟩
    · rw [orchRun]
      by_cases hlt : s.current_index < P.end_index
      · rw [if_pos hlt]
        rcases hstep : orchStep P s with _ | s2
        · exact ⟨le_refl _, hinv⟩
        · obtain ⟨h1, h2, h3, h4⟩ := orchStep_checkpoint_inv P s s2 hinv hstep
          obtain ⟨⟨g1, g2⟩, -⟩ := ih s2 h2
          exact ⟨le_trans h1 g1, g2⟩
      · rw [if_neg hlt]
        exact ⟨le_refl _, hinv⟩
    · intro s' hstep
      obtain ⟨h1, h2, h3, h4⟩ := orchStep_checkpoint_inv P s s' hinv hstep
      exact ⟨h1, h4⟩

/-- C1 counterexample: with one invalid row in the attempted slice of
width 2, the checkpoint after the first completed batch iteration is 1,
not start_index plus the attempted width. -/
theorem c1_counterexample :
    (orchRun exampleParams exampleInit 1).checkpoint.last_processed_index = 1 ∧
    min exampleParams.batch_size (exampleParams.end_index - exampleInit.current_index) = 2 ∧
    (orchRun exampleParams exampleInit 1).checkpoint.last_processed_index ≠
      exampleInit.current_index +
        min exampleParams.batch_size (exampleParams.end_index - exampleInit.current_index) := by
  refine ⟨?_, by decide, ?_⟩ <;> decide

/-- Witness for the amended C1 on the fixture run. -/
theorem c1_witness :
    exampleInit.checkpoint.last_processed_index ≤
      (orchRun exampleParams exampleInit 2).checkpoint.last_processed_index ∧
    (orchRun exampleParams exampleInit 2).checkpoint.last_processed_index ≤
      (orchRun exampleParams exampleInit 2).current_index :=
  (c1_checkpoint_amended exampleParams exampleInit 2 (by decide)).1

/-- The fuel-driven digit renderer agrees with the decimal digits. -/
lemma pyNatStrAux_eq_digits :
    ∀ (fuel n : ℕ), n ≤ fuel →
      pyNatStrAux fuel n = (Nat.digits 10 n).reverse.map Nat.digitChar := by
  intro fuel
  induction fuel with
  | zero =>
    intro n hn
    interval_cases n
    simp [pyNatStrAux]
  | succ fuel ih =>
    intro n hn
    by_cases h0 : n = 0
    · subst h0
      simp [pyNatStrAux]
    · rw [pyNatStrAux, if_neg h0]
      rw [ih (n / 10) ?_]
      · rw [Nat.digits_def' (by norm_num) (Nat.pos_of_ne_zero h0)]
        rw [List.reverse_cons, List.map_append]
        rfl
      · have hlt : n / 10 < n := Nat.div_lt_self (Nat.pos_of_ne_zero h0) (by norm_num)
        omega

/-- Digit characters of decimal digits are distinct. -/
lemma digitChar_inj_lt :
    ∀ d₁ < 10, ∀ d₂ < 10, Nat.digitChar d₁ = Nat.digitChar d₂ → d₁ = d₂ := by decide

/-- Mapping digitChar over digit lists below ten is injective. -/
lemma digits_map_digitChar_inj :
    ∀ (a b : List ℕ), (∀ d ∈ a, d < 10) → (∀ d ∈ b, d < 10) →
      a.map Nat.digitChar = b.map Nat.digitChar → a = b := by
  intro a
  induction a with
  | nil =>
    intro b _ _ h
    cases b
    · rfl
    · exact absurd h (by simp)
  | cons d a ih =>
    intro b ha hb h
    cases b with
    | nil => exact absurd h (by simp)
    | cons e b =>
      simp only [List.map_cons, List.cons.injEq] at h
      have hd : d = e :=
        digitChar_inj_lt d (ha d (by simp)) e (hb e (by simp)) h.1
      rw [hd, ih b (fun x hx => ha x (by simp [hx])) (fun x hx => hb x (by simp [hx])) h.2]

/-- Decimal rendering of naturals is injective. -/
lemma pyNatStr_inj : ∀ m n : ℕ, pyNatStr m = pyNatStr n → m = n := by
  have strEq : ∀ m : ℕ, m ≠ 0 →
      pyNatStr m = ⟨(Nat.digits 10 m).reverse.map Nat.digitChar⟩ := by
    intro m hm
    rw [pyNatStr, if_neg hm, pyNatStrAux_eq_digits (m + 1) m (Nat.le_succ m)]
  have digitsOf : ∀ m : ℕ, m ≠ 0 → (Nat.digits 10 m).reverse.map Nat.digitChar ≠ ['0'] := by
    intro m hm h
    have hrev : (Nat.digits 10 m).reverse = [0] := by
      have := digits_map_digitChar_inj (Nat.digits 10 m).reverse [0]
        (fun d hd => Nat.digits_lt_base (by norm_num) (List.mem_reverse.mp hd))
        (by simp) (by simpa using h)
      exact this
    have hdig : Nat.digits 10 m = [0] := by
      have := congrArg List.reverse hrev
      simpa using this
    have := Nat.ofDigits_digits 10 m
    rw [hdig] at this
    simp [Nat.ofDigits] at this
    exact hm this.symm
  intro m n h
  by_cases hm : m = 0 <;> by_cases hn : n = 0
  · rw [hm, hn]
  · subst hm
    rw [show pyNatStr 0 = "0" from rfl, strEq n hn] at h
    have : ['0'] = (Nat.digits 10 n).reverse.map Nat.digitChar :=
      congrArg String.data h
    exact absurd this.symm (digitsOf n hn)
  · subst hn
    rw [show pyNatStr 0 = "0" from rfl, strEq m hm] at h
    have : (Nat.digits 10 m).reverse.map Nat.digitChar = ['0'] :=
      congrArg String.data h
    exact absurd this (digitsOf m hm)
  · rw [strEq m hm, strEq n hn] at h
    have hdata : (Nat.digits 10 m).reverse.map Nat.digitChar =
        (Nat.digits 10 n).reverse.map Nat.digitChar := congrArg String.data h
    have hrev := digits_map_digitChar_inj _ _
      (fun d hd => Nat.digits_lt_base (by norm_num) (List.mem_reverse.mp hd))
      (fun d hd => Nat.digits_lt_base (by norm_num) (List.mem_reverse.mp hd)) hdata
    have hdig : Nat.digits 10 m = Nat.digits 10 n := by
      have := congrArg List.reverse hrev
      simpa using this
    have h1 := Nat.ofDigits_digits 10 m
    have h2 := Nat.ofDigits_digits 10 n
    rw [hdig] at h1
    rw [h2] at h1
    exact h1.symm


/-- String append cancels on the left. -/
lemma str_append_left_cancel :
    ∀ (p a b : String), p ++ a = p ++ b → a = b := by
  intro p a b h
  have hd := congrArg String.data h
  rw [String.data_append, String.data_append] at hd
  exact String.ext (List.append_cancel_left hd)

/-- A label-prefixed key never equals a confidence-prefixed key. -/
lemma label_append_ne_confidence_append :
    ∀ (a b : String), "label" ++ a ≠ "confidence" ++ b := by
  intro a b h
  have hd := congrArg String.data h
  rw [String.data_append, String.data_append] at hd
  rw [show "label".data = ['l','a','b','e','l'] from rfl,
    show "confidence".data = ['c','o','n','f','i','d','e','n','c','e'] from rfl] at hd
  simp only [List.cons_append, List.cons.injEq] at hd
  exact absurd hd.1 (by decide)

/-- Numbered label keys are distinct for distinct numbers. -/
lemma label_key_inj :
    ∀ (x y : ℕ), ("label" ++ pyNatStr x) = ("label" ++ pyNatStr y) → x = y := by
  intro x y h
  exact pyNatStr_inj x y (str_append_left_cancel _ _ _ h)

/-- The numbered encoding has two fields per pair. -/
lemma numberedFields_length :
    ∀ (L : List (String × ℚ)) (m : ℕ), (numberedFields m L).length = 2 * L.length := by
  intro L
  induction L with
  | nil => intro m; rfl
  | cons p rest ih =>
    intro m
    rw [numberedFields]
    simp [ih (m + 1)]
    ring

/-- Looking up the i-th numbered label key yields the i-th label. -/
lemma nf_lookup_label :
    ∀ (L : List (String × ℚ)) (m i : ℕ) (h : i < L.length),
      List.lookup ("label" ++ pyNatStr (m + i)) (numberedFields m L) =
        some (.str (L.get ⟨i, h⟩).1) := by
  intro L
  induction L with
  | nil => intro m i h; exact absurd h (by simp)
  | cons p rest ih =>
    intro m i h
    rw [numberedFields]
    cases i with
    | zero =>
      rw [Nat.add_zero]
      simp [List.lookup]
    | succ i =>
      have h1 : (("label" ++ pyNatStr (m + (i + 1))) == ("label" ++ pyNatStr m)) = false := by
        rw [beq_eq_false_iff_ne]
        intro hc
        have := label_key_inj _ _ hc
        omega
      have h2 : (("label" ++ pyNatStr (m + (i + 1))) == ("confidence" ++ pyNatStr m)) = false := by
        rw [beq_eq_false_iff_ne]
        exact label_append_ne_confidence_append _ _
      rw [List.lookup, h1, List.lookup, h2]
      have := ih (m + 1) i (by simpa using Nat.succ_lt_succ_iff.mp h)
      rw [show m + 1 + i = m + (i + 1) by omega] at this
      rw [this]
      rfl

/-- Looking up the i-th numbered confidence key yields the i-th
confidence. -/
lemma nf_lookup_conf :
    ∀ (L : List (String × ℚ)) (m i : ℕ) (h : i < L.length),
      List.lookup ("confidence" ++ pyNatStr (m + i)) (numberedFields m L) =
        some (.num (L.get ⟨i, h⟩).2) := by
  intro L
  induction L with
  | nil => intro m i h; exact absurd h (by simp)
  | cons p rest ih =>
    intro m i h
    rw [numberedFields]
    cases i with
    | zero =>
      rw [Nat.add_zero]
      have h1 : (("confidence" ++ pyNatStr m) == ("label" ++ pyNatStr m)) = false := by
        rw [beq_eq_false_iff_ne]
        intro hc
        exact label_append_ne_confidence_append _ _ hc.symm
      rw [List.lookup, h1]
      simp [List.lookup]
    | succ i =>
      have h1 : (("confidence" ++ pyNatStr (m + (i + 1))) == ("label" ++ pyNatStr m)) = false := by
        rw [beq_eq_false_iff_ne]
        intro hc
        exact label_append_ne_confidence_append _ _ hc.symm
      have h2 : (("confidence" ++ pyNatStr (m + (i + 1))) == ("confidence" ++ pyNatStr m)) = false := by
        rw [beq_eq_false_iff_ne]
        intro hc
        have := pyNatStr_inj _ _ (str_append_left_cancel _ _ _ hc)
        omega
      rw [List.lookup, h1, List.lookup, h2]
      have := ih (m + 1) i (by simpa using Nat.succ_lt_succ_iff.mp h)
      rw [show m + 1 + i = m + (i + 1) by omega] at this
      rw [this]
      rfl

/-- The first out-of-range numbered label key is absent. -/
lemma nf_lookup_label_end :
    ∀ (L : List (String × ℚ)) (m : ℕ),
      List.lookup ("label" ++ pyNatStr (m + L.length)) (numberedFields m L) = none := by
  intro L
  induction L with
  | nil => intro m; rfl
  | cons p rest ih =>
    intro m
    rw [numberedFields]
    have h1 : (("label" ++ pyNatStr (m + (rest.length + 1))) == ("label" ++ pyNatStr m)) = false := by
      rw [beq_eq_false_iff_ne]
      intro hc
      have := label_key_inj _ _ hc
      omega
    have h2 : (("label" ++ pyNatStr (m + (rest.length + 1))) == ("confidence" ++ pyNatStr m)) = false := by
      rw [beq_eq_false_iff_ne]
      exact label_append_ne_confidence_append _ _
    show List.lookup ("label" ++ pyNatStr (m + (rest.length + 1))) _ = none
    rw [List.lookup, h1, List.lookup, h2]
    have := ih (m + 1)
    rw [show m + 1 + rest.length = m + (rest.length + 1) by omega] at this
    exact this


/-- The numbered while loop reconstructs exactly the encoded pairs when
the lookups behave as in the numbered encoding. -/
lemma collectNumbered_spec :
    ∀ (L : List (String × ℚ)) (j : Json) (m fuel : ℕ),
      (∀ i (h : i < L.length),
        j.lookup ("label" ++ pyNatStr (m + i)) = some (.str (L.get ⟨i, h⟩).1) ∧
        j.lookup ("confidence" ++ pyNatStr (m + i)) = some (.num (L.get ⟨i, h⟩).2)) →
      j.lookup ("label" ++ pyNatStr (m + L.length)) = none →
      L.length < fuel →
      collectNumbered j m fuel = .ok (L.map itemOf) := by
  intro L
  induction L with
  | nil =>
    intro j m fuel hlook hend hfuel
    rcases fuel with _ | fuel
    · omega
    · rw [collectNumbered]
      simp only [List.length_nil, Nat.add_zero] at hend
      rw [hend]
      rfl
  | cons p rest ih =>
    intro j m fuel hlook hend hfuel
    rcases fuel with _ | fuel
    · omega
    · rw [collectNumbered]
      obtain ⟨hl, hc⟩ := hlook 0 (by simp)
      rw [Nat.add_zero] at hl hc
      rw [hl, hc]
      dsimp only [pyFloat]
      have hrec := ih j (m + 1) fuel ?_ ?_ ?_
      · rw [hrec]
        rfl
      · intro i h
        have := hlook (i + 1) (by simpa using Nat.succ_lt_succ h)
        rw [show m + (i + 1) = m + 1 + i by omega] at this
        exact this
      · have := hend
        rw [show m + (p :: rest).length = m + 1 + rest.length by simp; omega] at this
        exact this
      · simpa using Nat.succ_lt_succ_iff.mp hfuel


/-- A lookup hit is one of the stored values. -/
lemma lookup_val_mem :
    ∀ (l : List (String × Json)) (k : String) (v : Json),
      l.lookup k = some v → v ∈ l.map Prod.snd := by
  intro l
  induction l with
  | nil => intro k v h; exact absurd h (by simp)
  | cons kv rest ih =>
    intro k v h
    rw [List.lookup] at h
    by_cases hk : (k == kv.1) = true
    · rw [hk] at h
      injection h with h
      subst h
      simp
    · rw [Bool.not_eq_true] at hk
      rw [hk] at h
      simp only [List.map_cons, List.mem_cons]
      exact Or.inr (ih k v h)

/-- The known-key scan fails when no field holds a list. -/
lemma findKnownArr_of_no_arr :
    ∀ (fields : List (String × Json)),
      (∀ v ∈ fields.map Prod.snd, v.isArr = false) →
      findKnownArr (.obj fields) = none := by
  intro fields hv
  unfold findKnownArr
  rw [List.findSome?_eq_none_iff]
  intro k _
  rcases hl : (Json.obj fields).lookup k with _ | v
  · rfl
  · have hva := hv v (lookup_val_mem fields k v hl)
    cases v with
    | arr xs => simp [Json.isArr] at hva
    | null => rfl
    | bool b => rfl
    | num q => rfl
    | str s2 => rfl
    | obj f2 => rfl

/-- The recursive array search fails on scalar values. -/
lemma findArrayRec_leaf :
    ∀ (d : ℕ) (j : Json), j.isArr = false → j.isObj = false →
      findArrayRec d j = none := by
  intro d j h1 h2
  cases d with
  | zero => rfl
  | succ d =>
    cases j with
    | arr xs => simp [Json.isArr] at h1
    | obj f => simp [Json.isObj] at h2
    | null => rfl
    | bool b => rfl
    | num q => rfl
    | str s2 => rfl

/-- The recursive array search fails on an object of scalar values. -/
lemma findArrayRec_of_leaves :
    ∀ (d : ℕ) (fields : List (String × Json)),
      (∀ v ∈ fields.map Prod.snd, v.isArr = false ∧ v.isObj = false) →
      findArrayRec d (.obj fields) = none := by
  intro d fields hv
  cases d with
  | zero => rfl
  | succ d =>
    rw [findArrayRec]
    rw [List.findSome?_eq_none_iff]
    intro kv hkv
    have := hv kv.2 (List.mem_map_of_mem Prod.snd hkv)
    exact findArrayRec_leaf d kv.2 this.1 this.2

/-- All values of the numbered encoding are scalars. -/
lemma numberedFields_vals :
    ∀ (L : List (String × ℚ)) (m : ℕ) (v : Json),
      v ∈ (numberedFields m L).map Prod.snd → v.isArr = false ∧ v.isObj = false := by
  intro L
  induction L with
  | nil => intro m v h; exact absurd h (by simp [numberedFields])
  | cons p rest ih =>
    intro m v h
    rw [numberedFields] at h
    simp only [List.map_cons, List.mem_cons] at h
    rcases h with rfl | h
    · exact ⟨rfl, rfl⟩
    rcases h with rfl | h
    · exact ⟨rfl, rfl⟩
    · exact ih (m + 1) v (by simpa using h)

/-- The item loop passes on canonically encoded pairs with confidences
in the unit interval. -/
lemma checkItems_itemOf :
    ∀ (L : List (String × ℚ)) (i : ℕ), (∀ p ∈ L, 0 ≤ p.2 ∧ p.2 ≤ 1) →
      checkItems (L.map itemOf) i = none := by
  intro L
  induction L with
  | nil => intro i _; rfl
  | cons p rest ih =>
    intro i hc
    rw [List.map_cons, checkItems]
    simp only [show (itemOf p).isObj = true from rfl,
      show (itemOf p).hasKey "label" = true from rfl,
      show (itemOf p).hasKey "confidence" = true from rfl,
      not_true, if_false]
    show (match ((itemOf p).lookup "confidence").bind pyFloat with
      | none => some ("Item " ++ pyNatStr i ++ " confidence must be a number")
      | some q =>
        if ¬(0 ≤ q ∧ q ≤ 1) then
          some ("Item " ++ pyNatStr i ++ " confidence must be between 0.0 and 1.0")
        else checkItems (rest.map itemOf) (i + 1)) = none
    rw [show ((itemOf p).lookup "confidence").bind pyFloat = some p.2 from rfl]
    show (if ¬(0 ≤ p.2 ∧ p.2 ≤ 1) then _ else checkItems (rest.map itemOf) (i + 1)) = none
    rw [if_neg (not_not_intro (hc p (by simp)))]
    exact ih (i + 1) (fun x hx => hc x (by simp [hx]))

/-- finishItems accepts canonically encoded pairs with confidences in
the unit interval. -/
lemma finishItems_itemOf :
    ∀ (L : List (String × ℚ)), (∀ p ∈ L, 0 ≤ p.2 ∧ p.2 ≤ 1) →
      finishItems (L.map itemOf) = (some (L.map itemOf), "Valid") := by
  intro L hc
  unfold finishItems
  rw [checkItems_itemOf L 0 hc]

/-- The flat reconstruction recovers the pairs from the numbered
encoding. -/
lemma tryReconstructFlat_numbered :
    ∀ (L : List (String × ℚ)), L ≠ [] →
      tryReconstructFlat (numberedFields 1 L) = some (L.map itemOf) := by
  intro L hne
  unfold tryReconstructFlat
  have hcoll : collectNumbered (Json.obj (numberedFields 1 L)) 1
      ((numberedFields 1 L).length + 1) = .ok (L.map itemOf) := by
    apply collectNumbered_spec
    · intro i h
      exact ⟨nf_lookup_label L 1 i h, nf_lookup_conf L 1 i h⟩
    · exact nf_lookup_label_end L 1
    · rw [numberedFields_length]
      omega
  simp only [hcoll]
  have hemp : (L.map itemOf).isEmpty = false := by
    rcases L with _ | ⟨p, rest⟩
    · exact absurd rfl hne
    · rfl
  rw [hemp]
  rfl


/-- Lookup misses a single-field object under a different key. -/
lemma lookup_single_ne :
    ∀ (key k : String) (v : Json), key ≠ k →
      (Json.obj [(k, v)]).lookup key = none := by
  intro key k v h
  simp [Json.lookup, List.lookup, beq_eq_false_iff_ne.mpr h]

/-- The known-key scan finds the array stored under any known key. -/
lemma findKnownArr_single_known :
    ∀ k ∈ possibleKeys, ∀ xs, findKnownArr (.obj [(k, .arr xs)]) = some xs := by
  intro k hk xs
  fin_cases hk <;> rfl

/-- The known-key scan fails on a single-field object with an unknown
key. -/
lemma findKnownArr_single_unknown :
    ∀ (k : String), k ∉ possibleKeys → ∀ (v : Json),
      findKnownArr (.obj [(k, v)]) = none := by
  intro k hk v
  unfold findKnownArr
  rw [List.findSome?_eq_none_iff]
  intro key hkey
  rw [lookup_single_ne key k v (fun h => hk (h ▸ hkey))]

/-- The recursive search finds a non-empty canonical array nested under
fewer wrapper objects than the depth bound. -/
lemma far_nest :
    ∀ (ks : List String) (d : ℕ) (L : List (String × ℚ)), ks.length < d → L ≠ [] →
      findArrayRec d (nestObj ks (.arr (L.map itemOf))) = some (L.map itemOf) := by
  intro ks
  induction ks with
  | nil =>
    intro d L hd hne
    rcases d with _ | d
    · omega
    rcases L with _ | ⟨p, rest⟩
    · exact absurd rfl hne
    rw [nestObj, List.map_cons]
    show (if (itemOf p).isObj = true ∧
        ((itemOf p).hasKey "label" = true ∨ (itemOf p).hasKey "name" = true)
      then some (itemOf p :: List.map itemOf rest) else none) =
      some (itemOf p :: List.map itemOf rest)
    rw [if_pos ⟨rfl, Or.inl rfl⟩]
  | cons k ks ih =>
    intro d L hd hne
    rcases d with _ | d
    · omega
    rw [nestObj, findArrayRec]
    rw [List.findSome?]
    rw [ih d L (by simpa using Nat.succ_lt_succ_iff.mp hd) hne]

/-- Shape a parses to the canonical list. -/
lemma validateParsed_encArray :
    ∀ (L : List (String × ℚ)), (∀ p ∈ L, 0 ≤ p.2 ∧ p.2 ≤ 1) →
      validateParsed (encArray L) = (some (L.map itemOf), "Valid") := by
  intro L hc
  show finishItems (L.map itemOf) = _
  exact finishItems_itemOf L hc

/-- Shape b parses to the canonical list for every known key. -/
lemma validateParsed_encKnownKey :
    ∀ (L : List (String × ℚ)), (∀ p ∈ L, 0 ≤ p.2 ∧ p.2 ≤ 1) →
      ∀ k ∈ possibleKeys,
        validateParsed (encKnownKey k L) = (some (L.map itemOf), "Valid") := by
  intro L hc k hk
  show validateParsed (Json.obj [(k, .arr (L.map itemOf))]) = _
  simp only [validateParsed, findKnownArr_single_known k hk (L.map itemOf)]
  exact finishItems_itemOf L hc

/-- Shape c parses to the canonical list for a non-empty payload nested
under at most four unknown keys. -/
lemma validateParsed_encNested :
    ∀ (L : List (String × ℚ)), (∀ p ∈ L, 0 ≤ p.2 ∧ p.2 ≤ 1) → L ≠ [] →
      ∀ (ks : List String), ks ≠ [] → ks.length ≤ 4 → (∀ k ∈ ks, k ∉ possibleKeys) →
        validateParsed (encNested ks L) = (some (L.map itemOf), "Valid") := by
  intro L hc hne ks hks hlen hkeys
  rcases ks with _ | ⟨k₀, krest⟩
  · exact absurd rfl hks
  have h1 : findKnownArr (.obj [(k₀, nestObj krest (.arr (L.map itemOf)))]) = none :=
    findKnownArr_single_unknown k₀ (hkeys k₀ (by simp)) _
  have h2 : findArrayRec 5 (.obj [(k₀, nestObj krest (.arr (L.map itemOf)))]) =
      some (L.map itemOf) := by
    have := far_nest (k₀ :: krest) 5 L (by simpa using Nat.lt_succ_of_le hlen) hne
    rw [nestObj] at this
    exact this
  show validateParsed (Json.obj [(k₀, nestObj krest (.arr (L.map itemOf)))]) = _
  simp only [validateParsed, h1, h2]
  exact finishItems_itemOf L hc

/-- Shape d, numbered variant, parses to the canonical list for a
non-empty payload. -/
lemma validateParsed_encNumbered :
    ∀ (L : List (String × ℚ)), (∀ p ∈ L, 0 ≤ p.2 ∧ p.2 ≤ 1) → L ≠ [] →
      validateParsed (encNumbered L) = (some (L.map itemOf), "Valid") := by
  intro L hc hne
  have h1 : findKnownArr (.obj (numberedFields 1 L)) = none :=
    findKnownArr_of_no_arr _ (fun v hv => (numberedFields_vals L 1 v hv).1)
  have h2 : findArrayRec 5 (.obj (numberedFields 1 L)) = none :=
    findArrayRec_of_leaves 5 _ (numberedFields_vals L 1)
  have h3 : tryReconstructFlat (numberedFields 1 L) = some (L.map itemOf) :=
    tryReconstructFlat_numbered L hne
  show validateParsed (Json.obj (numberedFields 1 L)) = _
  simp only [validateParsed, h1, h2, h3]
  exact finishItems_itemOf L hc


/-- Lookup misses when the key is absent. -/
lemma lookup_none_of_not_mem_keys :
    ∀ (l : List (String × Json)) (k : String), k ∉ l.map Prod.fst →
      List.lookup k l = none := by
  intro l
  induction l with
  | nil => intro k _; rfl
  | cons kv rest ih =>
    intro k hk
    simp only [List.map_cons, List.mem_cons, not_or] at hk
    rw [List.lookup, beq_eq_false_iff_ne.mpr hk.1]
    exact ih k hk.2

/-- Lookup prefers a hit in the left part of an append. -/
lemma lookup_append_first :
    ∀ (l₁ l₂ : List (String × Json)) (k : String) (v : Json),
      l₁.lookup k = some v → (l₁ ++ l₂).lookup k = some v := by
  intro l₁
  induction l₁ with
  | nil => intro l₂ k v h; exact absurd h (by simp)
  | cons kv rest ih =>
    intro l₂ k v h
    rw [List.lookup] at h
    rw [List.cons_append, List.lookup]
    by_cases hk : (k == kv.1) = true
    · rw [hk] at h ⊢
      exact h
    · rw [Bool.not_eq_true] at hk
      rw [hk] at h ⊢
      exact ih l₂ k v h

/-- Lookup falls through to the right part when the left part misses. -/
lemma lookup_append_second :
    ∀ (l₁ l₂ : List (String × Json)) (k : String),
      l₁.lookup k = none → (l₁ ++ l₂).lookup k = l₂.lookup k := by
  intro l₁
  induction l₁ with
  | nil => intro l₂ k _; rfl
  | cons kv rest ih =>
    intro l₂ k h
    rw [List.lookup] at h
    rw [List.cons_append, List.lookup]
    by_cases hk : (k == kv.1) = true
    · rw [hk] at h
      exact absurd h (by simp)
    · rw [Bool.not_eq_true] at hk
      rw [hk] at h ⊢
      exact ih l₂ k h

/-- In a zip with duplicate-free keys, looking up the i-th key yields the
i-th value. -/
lemma lookup_zip_get :
    ∀ (ks : List String) (vs : List Json), ks.Nodup → ks.length = vs.length →
      ∀ (i : ℕ) (h : i < ks.length) (h2 : i < vs.length),
        (ks.zip vs).lookup (ks.get ⟨i, h⟩) = some (vs.get ⟨i, h2⟩) := by
  intro ks
  induction ks with
  | nil => intro vs _ _ i h; exact absurd h (by simp)
  | cons k rest ih =>
    intro vs hnd hlen i h h2
    rcases vs with _ | ⟨v, vrest⟩
    · exact absurd hlen (by simp)
    rw [List.zip_cons_cons]
    cases i with
    | zero => simp [List.lookup]
    | succ i =>
      simp only [List.get_cons_succ]
      have hi : i < rest.length := by simpa using Nat.succ_lt_succ_iff.mp h
      have hne : (rest.get ⟨i, hi⟩ == k) = false := by
        rw [beq_eq_false_iff_ne]
        intro hc
        exact (List.nodup_cons.mp hnd).1 (hc ▸ List.get_mem rest i hi)
      rw [List.lookup, hne]
      exact ih vrest (List.nodup_cons.mp hnd).2 (by simpa using hlen) i _ _

/-- A strictly increasing key list has no duplicates. -/
lemma chain_lt_nodup :
    ∀ (l : List String), List.Chain' (· < ·) l → l.Nodup := by
  intro l h
  have hp : l.Pairwise (· < ·) := List.chain'_iff_pairwise.mp h
  exact hp.imp ne_of_lt

/-- Sorting a strictly increasing list is the identity. -/
lemma pySorted_of_chain :
    ∀ (l : List String), List.Chain' (· < ·) l → pySorted l = l := by
  intro l
  induction l with
  | nil => intro _; rfl
  | cons x xs ih =>
    intro h
    rw [pySorted, ih (List.Chain'.tail h)]
    rcases xs with _ | ⟨y, ys⟩
    · rfl
    · rw [insertSorted, if_pos (List.chain'_cons.mp h).1]

/-- The unnumbered reconstruction recovers the pairs when the lookups
behave as in the flat encoding. -/
lemma collectUnnumbered_spec :
    ∀ (L : List (String × ℚ)) (j : Json) (lks cks : List String),
      lks.length = L.length → cks.length = L.length →
      (∀ (i : ℕ) (hi : i < L.length) (hl : i < lks.length) (hc : i < cks.length),
        j.lookup (lks.get ⟨i, hl⟩) = some (.str (L.get ⟨i, hi⟩).1) ∧
        j.lookup (cks.get ⟨i, hc⟩) = some (.num (L.get ⟨i, hi⟩).2)) →
      collectUnnumbered j (lks.zip cks) = .ok (L.map itemOf) := by
  intro L
  induction L with
  | nil =>
    intro j lks cks h1 h2 _
    rw [List.length_eq_zero.mp h1]
    rfl
  | cons p rest ih =>
    intro j lks cks h1 h2 hlook
    rcases lks with _ | ⟨lk, lks'⟩
    · exact absurd h1 (by simp)
    rcases cks with _ | ⟨ck, cks'⟩
    · exact absurd h2 (by simp)
    rw [List.zip_cons_cons, collectUnnumbered]
    obtain ⟨hl, hc⟩ := hlook 0 (by simp) (by simp) (by simp)
    rw [show (lk :: lks').get ⟨0, by simp⟩ = lk from rfl] at hl
    rw [show (ck :: cks').get ⟨0, by simp⟩ = ck from rfl] at hc
    rw [hl, hc]
    dsimp only [pyFloat]
    rw [ih j lks' cks' (by simpa using h1) (by simpa using h2) ?_]
    · rfl
    · intro i hi hli hci
      exact hlook (i + 1) (by simpa using Nat.succ_lt_succ hi)
        (by simpa using Nat.succ_lt_succ hli) (by simpa using Nat.succ_lt_succ hci)


/-- Shape d, substring variant: a flat object pairing sorted
label-substring keys with sorted confidence-substring keys parses to the
canonical list. -/
lemma validateParsed_encFlatKeys :
    ∀ (L : List (String × ℚ)), (∀ p ∈ L, 0 ≤ p.2 ∧ p.2 ≤ 1) → L ≠ [] →
      ∀ (lks cks : List String),
        lks.length = L.length → cks.length = L.length →
        List.Chain' (· < ·) lks → List.Chain' (· < ·) cks →
        (∀ k ∈ lks, strContains (pyLower k) "label" = true ∧
          strContains (pyLower k) "confidence" = false ∧
          strContains (pyLower k) "conf" = false) →
        (∀ k ∈ cks, (strContains (pyLower k) "confidence" = true ∨
          strContains (pyLower k) "conf" = true) ∧
          strContains (pyLower k) "label" = false) →
        "label1" ∉ lks →
        validateParsed (encFlatKeys lks cks L) = (some (L.map itemOf), "Valid") := by
  intro L hconf hne lks cks hlen1 hlen2 hch1 hch2 hlk hck hno1
  set zipA := lks.zip (L.map fun p => Json.str p.1) with hzipA
  set zipB := cks.zip (L.map fun p => Json.num p.2) with hzipB
  set fields := zipA ++ zipB with hfields
  have hLA : lks.length = (L.map fun p => Json.str p.1).length := by simp [hlen1]
  have hLB : cks.length = (L.map fun p => Json.num p.2).length := by simp [hlen2]
  have hkeysA : zipA.map Prod.fst = lks := List.map_fst_zip _ _ (le_of_eq hLA)
  have hkeysB : zipB.map Prod.fst = cks := List.map_fst_zip _ _ (le_of_eq hLB)
  have hkeys : fields.map Prod.fst = lks ++ cks := by
    rw [hfields, List.map_append, hkeysA, hkeysB]
  have hleaves : ∀ v ∈ fields.map Prod.snd, v.isArr = false ∧ v.isObj = false := by
    intro v hv
    rw [hfields, List.map_append] at hv
    rcases List.mem_append.mp hv with h | h
    · obtain ⟨kv, hkv, rfl⟩ := List.mem_map.mp h
      obtain ⟨p, -, hp⟩ := List.mem_map.mp (List.of_mem_zip hkv).2
      rw [← hp]
      exact ⟨rfl, rfl⟩
    · obtain ⟨kv, hkv, rfl⟩ := List.mem_map.mp h
      obtain ⟨p, -, hp⟩ := List.mem_map.mp (List.of_mem_zip hkv).2
      rw [← hp]
      exact ⟨rfl, rfl⟩
  have h1 : findKnownArr (.obj fields) = none :=
    findKnownArr_of_no_arr _ (fun v hv => (hleaves v hv).1)
  have h2 : findArrayRec 5 (.obj fields) = none :=
    findArrayRec_of_leaves 5 _ hleaves
  have hlabel1 : "label1" ∉ fields.map Prod.fst := by
    rw [hkeys]
    intro hmem
    rcases List.mem_append.mp hmem with h | h
    · exact hno1 h
    · have := (hck _ h).2
      rw [show strContains (pyLower "label1") "label" = true from rfl] at this
      exact absurd this (by simp)
  have hcoll1 : collectNumbered (.obj fields) 1 (fields.length + 1) = .ok [] := by
    rw [collectNumbered]
    rw [show ("label" ++ pyNatStr 1) = "label1" from rfl]
    rw [show (Json.obj fields).lookup "label1" = List.lookup "label1" fields from rfl]
    rw [lookup_none_of_not_mem_keys fields "label1" hlabel1]
  have hfilter1 : (lks ++ cks).filter (fun k => strContains (pyLower k) "label") = lks := by
    rw [List.filter_append]
    rw [List.filter_eq_self.mpr (fun k hk => (hlk k hk).1)]
    rw [show List.filter (fun k => strContains (pyLower k) "label") cks = [] from
      List.filter_eq_nil_iff.mpr (fun k hk => by simp [(hck k hk).2]), List.append_nil]
  have hfilter2 : (lks ++ cks).filter
      (fun k => strContains (pyLower k) "confidence" || strContains (pyLower k) "conf") = cks := by
    rw [List.filter_append]
    rw [show List.filter
        (fun k => strContains (pyLower k) "confidence" || strContains (pyLower k) "conf") lks = []
      from List.filter_eq_nil_iff.mpr (fun k hk => by simp [(hlk k hk).2.1, (hlk k hk).2.2])]
    rw [List.filter_eq_self.mpr (fun k hk => by
      rcases (hck k hk).1 with h | h <;> simp [h]), List.nil_append]
  have hcollU : collectUnnumbered (.obj fields) (lks.zip cks) = .ok (L.map itemOf) := by
    apply collectUnnumbered_spec L (.obj fields) lks cks hlen1 hlen2
    intro i hi hl hc
    constructor
    · have hz := lookup_zip_get lks (L.map fun p => Json.str p.1) (chain_lt_nodup lks hch1)
        hLA i hl (by simpa [hlen1] using hi)
      have : (Json.obj fields).lookup (lks.get ⟨i, hl⟩) =
          List.lookup (lks.get ⟨i, hl⟩) fields := rfl
      rw [this, hfields]
      rw [lookup_append_first zipA zipB _ _ hz]
      congr 1
      simp [List.get_eq_getElem, List.getElem_map]
    · have hnotA : (cks.get ⟨i, hc⟩) ∉ zipA.map Prod.fst := by
        rw [hkeysA]
        intro hmem
        have hT := (hlk _ hmem).1
        have hF := (hck _ (List.get_mem cks i hc)).2
        rw [hT] at hF
        exact absurd hF (by simp)
      have hz := lookup_zip_get cks (L.map fun p => Json.num p.2) (chain_lt_nodup cks hch2)
        hLB i hc (by simpa [hlen2] using hi)
      have : (Json.obj fields).lookup (cks.get ⟨i, hc⟩) =
          List.lookup (cks.get ⟨i, hc⟩) fields := rfl
      rw [this, hfields]
      rw [lookup_append_second zipA zipB _ (lookup_none_of_not_mem_keys zipA _ hnotA)]
      rw [hz]
      congr 1
      simp [List.get_eq_getElem, List.getElem_map]
  have h3 : tryReconstructFlat fields = some (L.map itemOf) := by
    unfold tryReconstructFlat
    simp only [hcoll1]
    rw [show (List.isEmpty ([] : List Json)) = true from rfl]
    simp only [if_true]
    rw [show List.map (fun x => x.1) fields = List.map Prod.fst fields from rfl, hkeys]
    rw [hfilter1, hfilter2]
    rw [if_pos ⟨by rw [hlen1, hlen2], by rw [hlen1]; exact List.length_pos.mpr hne⟩]
    rw [pySorted_of_chain lks hch1, pySorted_of_chain cks hch2]
    rw [hcollU]
    have hemp : (L.map itemOf).isEmpty = false := by
      rcases L with _ | ⟨p, rest⟩
      · exact absurd rfl hne
      · rfl
    show (if (L.map itemOf).isEmpty = true then none else some (L.map itemOf)) =
      some (L.map itemOf)
    rw [hemp]
    rfl
  show validateParsed (Json.obj fields) = _
  simp only [validateParsed, h1, h2, h3]
  exact finishItems_itemOf L hconf


/-- C3: a non-empty payload of well-formed pairs presented in each of
the four supported JSON shapes, with the substring variant of the flat
shape included, yields is_valid = true and the identical normalized
list. -/
theorem c3_four_shapes :
    ∀ (L : List (String × ℚ)), L ≠ [] → (∀ p ∈ L, 0 ≤ p.2 ∧ p.2 ≤ 1) →
      validateParsed (encArray L) = (some (L.map itemOf), "Valid") ∧
      (∀ k ∈ possibleKeys,
        validateParsed (encKnownKey k L) = (some (L.map itemOf), "Valid")) ∧
      (∀ ks, ks ≠ [] → ks.length ≤ 4 → (∀ k ∈ ks, k ∉ possibleKeys) →
        validateParsed (encNested ks L) = (some (L.map itemOf), "Valid")) ∧
      validateParsed (encNumbered L) = (some (L.map itemOf), "Valid") ∧
      (∀ lks cks, lks.length = L.length → cks.length = L.length →
        List.Chain' (· < ·) lks → List.Chain' (· < ·) cks →
        (∀ k ∈ lks, strContains (pyLower k) "label" = true ∧
          strContains (pyLower k) "confidence" = false ∧
          strContains (pyLower k) "conf" = false) →
        (∀ k ∈ cks, (strContains (pyLower k) "confidence" = true ∨
          strContains (pyLower k) "conf" = true) ∧
          strContains (pyLower k) "label" = false) →
        "label1" ∉ lks →
        validateParsed (encFlatKeys lks cks L) = (some (L.map itemOf), "Valid")) := by
  intro L hne hconf
  exact ⟨validateParsed_encArray L hconf,
    validateParsed_encKnownKey L hconf,
    fun ks h1 h2 h3 => validateParsed_encNested L hconf hne ks h1 h2 h3,
    validateParsed_encNumbered L hconf hne,
    fun lks cks a b c d e f g =>
      validateParsed_encFlatKeys L hconf hne lks cks a b c d e f g⟩

/-- C3 counterexample: the empty payload parses as a direct array but
not when nested under an unknown key, so the claim fails without the
non-emptiness restriction. -/
theorem c3_counterexample :
    validateParsed (encArray []) = (some ([] : List Json), "Valid") ∧
    validateParsed (encNested ["wrapper"] []) ≠ (some ([] : List Json), "Valid") := by
  constructor
  · rfl
  · intro hc
    have h : (validateParsed (encNested ["wrapper"] [])).1 = none := rfl
    rw [hc] at h
    exact Option.noConfusion h

/-- Witness for C3 at a concrete one-label payload in the numbered and
substring flat shapes. -/
theorem c3_witness :
    validateParsed (encNumbered [("Khác", 1)]) =
      (some ([("Khác", (1:ℚ))].map itemOf), "Valid") ∧
    validateParsed (encFlatKeys ["mylabel"] ["myconf"] [("Khác", 1)]) =
      (some ([("Khác", (1:ℚ))].map itemOf), "Valid") :=
  ⟨(c3_four_shapes [("Khác", 1)] (by decide) (by decide)).2.2.2.1,
   (c3_four_shapes [("Khác", 1)] (by decide) (by decide)).2.2.2.2
     ["mylabel"] ["myconf"] (by decide) (by decide) (by simp) (by simp)
     (by decide) (by decide) (by decide)⟩

end ChatGPTLabeling
